import Mathlib

/-!
# argo-rollouts: traffic resolution and controller bootstrap

A shallow embedding of `utils/service/service.go` (the functions
`GetRolloutSelectorLabel` and `GetRolloutServiceKeys`) and of the command built by
`newCommand` in `cmd/rollouts-controller/main.go`.

Modelling conventions.

* A Go pointer `*T` is an `Option T`; `nil` is `none`.  Reading a field through a nil
  pointer is a run-time panic, so functions that dereference return
  `Except GoPanic _`.
* A Go `map[string]V` is an insertion-ordered association list with distinct keys;
  a nil map is `none`.  Reading a nil map yields the zero value, as in Go.
* `for k := range m` visits every key once, in an order the Go language leaves
  unspecified.  The order chosen by the run time is an explicit argument
  (`iter : List Nat`, a sequence of insertion positions) of every function that ranges
  over a map.
-/

namespace ArgoRollouts

/-! ## Go run-time primitives -/

/-- Run-time panics a Go function can end with. -/
inductive GoPanic where
  | nilPointerDereference
  deriving DecidableEq, Repr

deriving instance DecidableEq for Except

/-- Reading through a pointer: panics when the pointer is nil. -/
def deref {α : Type} : Option α → Except GoPanic α
  | some a => Except.ok a
  | none => Except.error GoPanic.nilPointerDereference

/-- The comma-ok map read `v, ok := m[k]` on a `map[string]string` (nil map allowed). -/
def mapIndex (m : Option (List (String × String))) (k : String) : String × Bool :=
  match m with
  | none => ("", false)
  | some entries =>
    match entries.lookup k with
    | some v => (v, true)
    | none => ("", false)

/-- The assignment `m[k] = v` on a `map[string]bool`. -/
def mapAssign (m : List (String × Bool)) (k : String) (v : Bool) : List (String × Bool) :=
  if k ∈ m.map Prod.fst then m.map (fun e => if e.1 = k then (k, v) else e)
  else m ++ [(k, v)]

/-- Put `a` at position `n` of `l` (at the end when `n` is past the end). -/
def insertAt {α : Type} (n : Nat) (a : α) (l : List α) : List α :=
  l.take n ++ a :: l.drop n

/-- The visiting order selected by the position sequence `iter`: the first element goes
to position `c` (modulo the admissible positions) of the reordered rest. When `iter` is
exhausted the remaining elements keep their order. -/
def reorder {α : Type} : List Nat → List α → List α
  | _, [] => []
  | [], a :: t => a :: t
  | c :: cs, a :: t => insertAt (c % (t.length + 1)) a (reorder cs t)

/-- The keys visited by `for k := range m`, in the order the run time picked. -/
def mapRange (iter : List Nat) (m : List (String × Bool)) : List String :=
  reorder iter (m.map Prod.fst)

/-- The call `fmt.Sprintf("%s/%s", a, b)`. -/
def Sprintf (a b : String) : String :=
  a ++ "/" ++ b

/-! ## Data model (the fields the functions read) -/

/-- The Go struct `corev1.ServiceSpec`: the label selector. -/
structure ServiceSpec where
  Selector : Option (List (String × String))

/-- The Go struct `corev1.Service`. -/
structure Service where
  Spec : ServiceSpec

/-- The Go struct `v1alpha1.BlueGreenStrategy`. -/
structure BlueGreenStrategy where
  ActiveService : String
  PreviewService : String

/-- The Go struct `v1alpha1.CanaryStrategy`. -/
structure CanaryStrategy where
  CanaryService : String

/-- The Go struct `v1alpha1.RolloutStrategy`: two optional variants. -/
structure RolloutStrategy where
  BlueGreenStrategy : Option BlueGreenStrategy
  CanaryStrategy : Option CanaryStrategy

/-- The Go struct `v1alpha1.RolloutSpec`. -/
structure RolloutSpec where
  Strategy : RolloutStrategy

/-- The Go struct `v1alpha1.Rollout`. -/
structure Rollout where
  Namespace : String
  Spec : RolloutSpec

/-- Modelled from the spec: the constant `v1alpha1.DefaultRolloutUniqueLabelKey` is
declared outside the available sources; the spec's end-to-end scenario uses the selector
key `rollouts-pod-template-hash` as the reserved unique-rollout-identifier label. -/
def DefaultRolloutUniqueLabelKey : String := "rollouts-pod-template-hash"

/-! ## `utils/service/service.go` -/

/-- The function `GetRolloutSelectorLabel` of `service.go`. -/
def GetRolloutSelectorLabel (svc : Option Service) : Except GoPanic (String × Bool) :=
  if svc.isNone then
    pure ("", false)
  else do
    let s ← deref svc
    if s.Spec.Selector.isNone then
      pure ("", false)
    else
      pure (mapIndex s.Spec.Selector DefaultRolloutUniqueLabelKey)

/-- The first part of `GetRolloutServiceKeys`: the set `servicesSet` after the strategy
branches have run. -/
def servicesSet (rollout : Rollout) : List (String × Bool) :=
  let servicesSet : List (String × Bool) := []
  match rollout.Spec.Strategy.BlueGreenStrategy with
  | some bg =>
    let servicesSet :=
      if bg.ActiveService ≠ "" then
        mapAssign servicesSet (Sprintf rollout.Namespace bg.ActiveService) true
      else servicesSet
    if bg.PreviewService ≠ "" then
      mapAssign servicesSet (Sprintf rollout.Namespace bg.PreviewService) true
    else servicesSet
  | none =>
    match rollout.Spec.Strategy.CanaryStrategy with
    | some canary =>
      if canary.CanaryService ≠ "" then
        mapAssign servicesSet (Sprintf rollout.Namespace canary.CanaryService) true
      else servicesSet
    | none => servicesSet

/-- The keys held by `servicesSet`, in insertion order. -/
def serviceKeys (rollout : Rollout) : List String :=
  (servicesSet rollout).map Prod.fst

/-- The function `GetRolloutServiceKeys` of `service.go`; `iter` is the order in which
the run time ranges over `servicesSet`. -/
def GetRolloutServiceKeys (iter : List Nat) (rollout : Option Rollout) :
    Except GoPanic (List String) := do
  let r ← deref rollout
  let set := servicesSet r
  pure ((mapRange iter set).foldl (fun services svc => services ++ [svc]) [])

/-! ## `cmd/rollouts-controller/main.go` -/

/-- The resource kinds that own a worker pool. -/
inductive Kind where
  | rollout
  | service
  | experiment
  deriving DecidableEq, Repr

/-- Observable actions of the controller process. -/
inductive Effect where
  | informersStarted
  | workerPoolStarted (kind : Kind) (workers : Int)
  | metricsServerStarted
  | workerPoolsDrained
  deriving DecidableEq, Repr

/-- What the collaborators called by `RunE` answer: `true` marks a call that returns an
error. -/
structure Environment where
  parseLevelErr : Bool
  clientConfigErr : Bool
  namespaceErr : Bool
  kubeClientErr : Bool
  rolloutClientErr : Bool
  workerPoolStartErr : Bool

/-- How a function of `main.go` ends: it returns (with an optional error) or the process
exits inside it (`log.Fatal` exits with status 1, `glog.Fatalf` with status 255). -/
inductive Ending where
  | returned (err : Option String)
  | exited (code : Nat)
  deriving DecidableEq, Repr

/-- Modelled from the spec: `controller.Manager.Run` belongs to the `controller` package,
which is not among the available sources. Following section 4.1: a worker count below 1
is invalid and fails fast; a worker pool that fails to start makes `Run` return an error
with no pool left running; otherwise `Run` starts one worker pool per resource kind with
the given count, starts the metrics endpoint, and after the stop signal drains the pools
and returns. The result is the list of effects and the returned error. -/
def Manager.Run (workerPoolStartErr : Bool)
    (rolloutWorkers serviceWorkers experimentWorkers : Int) : List Effect × Option String :=
  if rolloutWorkers < 1 ∨ serviceWorkers < 1 ∨ experimentWorkers < 1 then
    ([], some "invalid worker count")
  else if workerPoolStartErr then
    ([], some "worker pool failed to start")
  else
    ([Effect.workerPoolStarted Kind.rollout rolloutWorkers,
      Effect.workerPoolStarted Kind.service serviceWorkers,
      Effect.workerPoolStarted Kind.experiment experimentWorkers,
      Effect.metricsServerStarted,
      Effect.workerPoolsDrained], none)

/-- The `RunE` closure of the command built by `newCommand`, for the values bound to
`--rollout-threads`, `--service-threads` and `--experiment-threads`. -/
def RunE (env : Environment) (rolloutThreads serviceThreads experimentThreads : Int) :
    List Effect × Ending :=
  -- setLogLevel(logLevel)
  if env.parseLevelErr then ([], Ending.exited 1)
  -- config, err := clientConfig.ClientConfig(); checkError(err)
  else if env.clientConfigErr then ([], Ending.exited 1)
  -- configNS, modified, err := clientConfig.Namespace(); checkError(err)
  else if env.namespaceErr then ([], Ending.exited 1)
  -- kubeClient, err := kubernetes.NewForConfig(config); checkError(err)
  else if env.kubeClientErr then ([], Ending.exited 1)
  -- rolloutClient, err := clientset.NewForConfig(config); checkError(err)
  else if env.rolloutClientErr then ([], Ending.exited 1)
  else
    -- kubeInformerFactory.Start(stopCh); argoRolloutsInformerFactory.Start(stopCh)
    let started := [Effect.informersStarted]
    -- if err = cm.Run(...); err != nil { glog.Fatalf(...) }
    match Manager.Run env.workerPoolStartErr rolloutThreads serviceThreads experimentThreads with
    | (effects, some _) => (started ++ effects, Ending.exited 255)
    | (effects, none) => (started ++ effects, Ending.returned none)

/-- The function `main`: `newCommand().Execute()` binds the flags and calls `RunE`; an
error from `Execute` is printed and the process exits with status 1. A flag is `none`
when its text is not an integer, in which case `Execute` returns an error without calling
`RunE`. The result is the list of effects and the exit status of the process. -/
def main (env : Environment) (rolloutThreads serviceThreads experimentThreads : Option Int) :
    List Effect × Nat :=
  match rolloutThreads, serviceThreads, experimentThreads with
  | some r, some s, some e =>
    match RunE env r s e with
    | (effects, Ending.exited code) => (effects, code)
    | (effects, Ending.returned (some _)) => (effects, 1)
    | (effects, Ending.returned none) => (effects, 0)
  | _, _, _ => ([], 1)

/-- A flag value that is a positive integer. -/
def positiveCount (flag : Option Int) : Prop :=
  ∃ n : Int, flag = some n ∧ 0 < n

/-- An effect that starts a worker pool. -/
def Effect.startsWorkerPool : Effect → Prop
  | Effect.workerPoolStarted _ _ => True
  | _ => False

/-- Reference definition of the spec's `CurrentSelector`, written from the spec's
words: absent service or absent selector give `("", false)`; otherwise the value stored
under the reserved key with `true`, or `("", false)` when there is no entry. -/
def CurrentSelector (svc : Option Service) : String × Bool :=
  match svc with
  | none => ("", false)
  | some s =>
    match s.Spec.Selector with
    | none => ("", false)
    | some selector =>
      match selector.find? (fun e => e.1 = DefaultRolloutUniqueLabelKey) with
      | some e => (e.2, true)
      | none => ("", false)

/-! ## Lemmas on the run-time primitives -/

theorem foldl_append_singleton {α : Type} (l acc : List α) :
    l.foldl (fun services svc => services ++ [svc]) acc = acc ++ l := by
  induction l generalizing acc with
  | nil => simp
  | cons a t ih => simp [List.foldl_cons, ih]

theorem insertAt_perm {α : Type} (n : Nat) (a : α) (l : List α) :
    (insertAt n a l).Perm (a :: l) := by
  unfold insertAt
  have h : (l.take n ++ a :: l.drop n).Perm (a :: (l.take n ++ l.drop n)) :=
    List.perm_middle
  simpa [List.take_append_drop] using h

theorem reorder_perm {α : Type} (iter : List Nat) (l : List α) :
    (reorder iter l).Perm l := by
  induction l generalizing iter with
  | nil => cases iter <;> simp [reorder]
  | cons a t ih =>
    cases iter with
    | nil => simp [reorder]
    | cons c cs =>
      simp only [reorder]
      exact (insertAt_perm _ a _).trans ((ih cs).cons a)

theorem reorder_singleton {α : Type} (iter : List Nat) (a : α) :
    reorder iter [a] = [a] := by
  have h := reorder_perm iter [a]
  exact List.perm_singleton.mp h

theorem reorder_nil {α : Type} (iter : List Nat) :
    reorder iter ([] : List α) = [] := by
  cases iter <;> rfl

/-- Every visiting order is selected by some position sequence. -/
theorem reorder_complete {α : Type} (l l' : List α) (h : l'.Perm l) :
    ∃ iter, reorder iter l = l' := by
  induction l generalizing l' with
  | nil =>
    have : l' = [] := List.perm_nil.mp h
    exact ⟨[], by simp [this, reorder]⟩
  | cons a t ih =>
    have ha : a ∈ l' := h.symm.subset (List.mem_cons_self a t)
    obtain ⟨l1, l2, rfl⟩ := List.append_of_mem ha
    have h2 : (l1 ++ l2).Perm t := by
      have h3 : (a :: (l1 ++ l2)).Perm (a :: t) := List.perm_middle.symm.trans h
      exact (List.perm_cons a).mp h3
    obtain ⟨cs, hcs⟩ := ih (l1 ++ l2) h2
    refine ⟨l1.length :: cs, ?_⟩
    have hlen : l1.length < t.length + 1 := by
      have := h2.length_eq
      simp [List.length_append] at this
      omega
    simp only [reorder, hcs, Nat.mod_eq_of_lt hlen, insertAt]
    simp

theorem mapAssign_keys (m : List (String × Bool)) (k : String) (v : Bool) :
    (mapAssign m k v).map Prod.fst =
      if k ∈ m.map Prod.fst then m.map Prod.fst else m.map Prod.fst ++ [k] := by
  unfold mapAssign
  by_cases hk : k ∈ m.map Prod.fst
  · simp only [hk, if_true, List.map_map]
    apply List.map_congr_left
    intro e _
    by_cases he : e.1 = k <;> simp [he]
  · simp [hk]

/-! ## Lemmas on `GetRolloutServiceKeys` -/

theorem GetRolloutServiceKeys_some (iter : List Nat) (rollout : Rollout) :
    GetRolloutServiceKeys iter (some rollout) = Except.ok (reorder iter (serviceKeys rollout)) := by
  simp [GetRolloutServiceKeys, deref, mapRange, serviceKeys, foldl_append_singleton, bind,
    Except.bind, pure, Except.pure]

theorem serviceKeys_blueGreen (ns : String) (bg : BlueGreenStrategy)
    (canary : Option CanaryStrategy) :
    serviceKeys ⟨ns, ⟨⟨some bg, canary⟩⟩⟩ =
      (if bg.ActiveService ≠ "" then [Sprintf ns bg.ActiveService] else []) ++
      (if bg.PreviewService ≠ "" ∧
          ¬ (bg.ActiveService ≠ "" ∧ Sprintf ns bg.PreviewService = Sprintf ns bg.ActiveService)
        then [Sprintf ns bg.PreviewService] else []) := by
  unfold serviceKeys servicesSet
  by_cases ha : bg.ActiveService = "" <;> by_cases hp : bg.PreviewService = ""
    <;> simp [ha, hp, mapAssign_keys, mapAssign]
  by_cases he : Sprintf ns bg.PreviewService = Sprintf ns bg.ActiveService <;> simp [he]

theorem serviceKeys_canary (ns : String) (canary : CanaryStrategy) :
    serviceKeys ⟨ns, ⟨⟨none, some canary⟩⟩⟩ =
      if canary.CanaryService ≠ "" then [Sprintf ns canary.CanaryService] else [] := by
  unfold serviceKeys servicesSet
  by_cases hc : canary.CanaryService = "" <;> simp [hc, mapAssign]

theorem serviceKeys_neither (ns : String) :
    serviceKeys ⟨ns, ⟨⟨none, none⟩⟩⟩ = [] := by
  simp [serviceKeys, servicesSet]

theorem serviceKeys_nodup (rollout : Rollout) : (serviceKeys rollout).Nodup := by
  obtain ⟨ns, ⟨⟨bg, canary⟩⟩⟩ := rollout
  cases bg with
  | some b =>
    rw [serviceKeys_blueGreen]
    by_cases ha : b.ActiveService = "" <;> by_cases hp : b.PreviewService = ""
      <;> simp [ha, hp]
    by_cases he : Sprintf ns b.PreviewService = Sprintf ns b.ActiveService
    · simp [he]
    · simp [he]; exact fun h => he h.symm
  | none =>
    cases canary with
    | some c =>
      rw [serviceKeys_canary]
      by_cases hc : c.CanaryService = "" <;> simp [hc]
    | none => simp [serviceKeys_neither]

theorem Sprintf_inj (ns a b : String) (h : Sprintf ns a = Sprintf ns b) : a = b := by
  unfold Sprintf at h
  have h2 := congrArg String.data h
  simp only [String.data_append, List.append_assoc] at h2
  have h3 := List.append_cancel_left (List.append_cancel_left h2)
  exact String.ext h3

theorem mapIndex_eq_find (selector : List (String × String)) (k : String) :
    mapIndex (some selector) k =
      match selector.find? (fun e => e.1 = k) with
      | some e => (e.2, true)
      | none => ("", false) := by
  induction selector with
  | nil => simp [mapIndex, List.lookup]
  | cons e t ih =>
    obtain ⟨ek, ev⟩ := e
    by_cases hk : ek = k
    · subst hk
      simp [mapIndex, List.lookup, List.find?]
    · have hk2 : (k == ek) = false := by simpa using fun h => hk h.symm
      simp only [mapIndex, List.lookup, hk2, List.find?, hk, decide_False] at ih ⊢
      exact ih

theorem mem_serviceKeys_blueGreen (ns : String) (bg : BlueGreenStrategy)
    (canary : Option CanaryStrategy) (k : String) :
    k ∈ serviceKeys ⟨ns, ⟨⟨some bg, canary⟩⟩⟩ ↔
      (bg.ActiveService ≠ "" ∧ k = ns ++ "/" ++ bg.ActiveService) ∨
      (bg.PreviewService ≠ "" ∧ k = ns ++ "/" ++ bg.PreviewService) := by
  rw [serviceKeys_blueGreen]
  have hS : ∀ x, Sprintf ns x = ns ++ "/" ++ x := fun _ => rfl
  by_cases ha : bg.ActiveService = "" <;> by_cases hp : bg.PreviewService = ""
    <;> simp [ha, hp, hS]
  by_cases he : ns ++ "/" ++ bg.PreviewService = ns ++ "/" ++ bg.ActiveService
  · simp [he]
  · simp [he]

/-! ## Claims on the traffic resolver -/

/-- C4: `GetRolloutSelectorLabel` agrees with the reference definition `CurrentSelector`
on every service reference: an absent service or an absent selector give `("", false)`,
a selector whose entry for the reserved key holds `v` gives `(v, true)`, a selector with
no entry for the reserved key gives `("", false)`; with the examples `abc123` and
`rollouts-pod-template-hash ↦ r1-abc`. -/
theorem GetRolloutSelectorLabel_eq_CurrentSelector :
    (∀ svc : Option Service, GetRolloutSelectorLabel svc = Except.ok (CurrentSelector svc)) ∧
    GetRolloutSelectorLabel none = Except.ok ("", false) ∧
    GetRolloutSelectorLabel (some ⟨⟨none⟩⟩) = Except.ok ("", false) ∧
    (∀ (before after : List (String × String)) (v : String),
      (∀ e ∈ before, e.1 ≠ DefaultRolloutUniqueLabelKey) →
      GetRolloutSelectorLabel
        (some ⟨⟨some (before ++ (DefaultRolloutUniqueLabelKey, v) :: after)⟩⟩) =
        Except.ok (v, true)) ∧
    (∀ selector : List (String × String),
      (∀ e ∈ selector, e.1 ≠ DefaultRolloutUniqueLabelKey) →
      GetRolloutSelectorLabel (some ⟨⟨some selector⟩⟩) = Except.ok ("", false)) ∧
    GetRolloutSelectorLabel (some ⟨⟨some [(DefaultRolloutUniqueLabelKey, "abc123")]⟩⟩) =
      Except.ok ("abc123", true) ∧
    GetRolloutSelectorLabel (some ⟨⟨some [("rollouts-pod-template-hash", "r1-abc")]⟩⟩) =
      Except.ok ("r1-abc", true) := by
  have hsome : ∀ selector : List (String × String),
      GetRolloutSelectorLabel (some ⟨⟨some selector⟩⟩) =
        Except.ok (mapIndex (some selector) DefaultRolloutUniqueLabelKey) := by
    intro selector
    simp [GetRolloutSelectorLabel, deref, bind, Except.bind, pure, Except.pure]
  refine ⟨?_, rfl, rfl, ?_, ?_, rfl, rfl⟩
  · intro svc
    match svc with
    | none => rfl
    | some ⟨⟨none⟩⟩ => rfl
    | some ⟨⟨some selector⟩⟩ =>
      rw [hsome, mapIndex_eq_find]
      simp only [CurrentSelector]
  · intro before after v hb
    rw [hsome, mapIndex_eq_find]
    have hf : (before ++ (DefaultRolloutUniqueLabelKey, v) :: after).find?
        (fun e => e.1 = DefaultRolloutUniqueLabelKey) = some (DefaultRolloutUniqueLabelKey, v) := by
      induction before with
      | nil => simp [List.find?]
      | cons e t ih =>
        have he : e.1 ≠ DefaultRolloutUniqueLabelKey := hb e (List.mem_cons_self e t)
        simp only [List.cons_append, List.find?, he, decide_False]
        exact ih (fun x hx => hb x (List.mem_cons_of_mem e hx))
    rw [hf]
  · intro selector hs
    rw [hsome, mapIndex_eq_find]
    have hf : selector.find? (fun e => e.1 = DefaultRolloutUniqueLabelKey) = none := by
      rw [List.find?_eq_none]
      intro e he
      simpa using hs e he
    rw [hf]

/-- Witness for C4: a three-entry selector whose second entry is the reserved key. -/
theorem GetRolloutSelectorLabel_eq_CurrentSelector_witness :
    GetRolloutSelectorLabel
      (some ⟨⟨some ([("app", "guestbook")] ++
        (DefaultRolloutUniqueLabelKey, "abc123") :: [("tier", "web")])⟩⟩) =
      Except.ok ("abc123", true) ∧
    GetRolloutSelectorLabel (some ⟨⟨some [("app", "guestbook")]⟩⟩) = Except.ok ("", false) :=
  ⟨GetRolloutSelectorLabel_eq_CurrentSelector.2.2.2.1 [("app", "guestbook")] [("tier", "web")]
      "abc123" (by decide),
    GetRolloutSelectorLabel_eq_CurrentSelector.2.2.2.2.1 [("app", "guestbook")] (by decide)⟩

/-- C1: for a rollout whose BlueGreen strategy is populated (whatever its Canary field),
`GetRolloutServiceKeys` returns a list in which `k` occurs exactly when `k` is the key
`ns/active` of a non-empty active service name or the key `ns/preview` of a non-empty
preview service name; the list is empty when both names are empty; for the rollout of
namespace `prod` with services `svc-active` and `svc-preview` the keys are
`prod/svc-active` and `prod/svc-preview`. -/
theorem GetRolloutServiceKeys_blueGreen_mem :
    (∀ (iter : List Nat) (ns a p : String) (canary : Option CanaryStrategy),
      ∃ l, GetRolloutServiceKeys iter (some ⟨ns, ⟨⟨some ⟨a, p⟩, canary⟩⟩⟩) = Except.ok l ∧
        (∀ k, k ∈ l ↔ (a ≠ "" ∧ k = ns ++ "/" ++ a) ∨ (p ≠ "" ∧ k = ns ++ "/" ++ p)) ∧
        (a = "" → p = "" → l = [])) ∧
    (∀ (iter : List Nat) (canary : Option CanaryStrategy),
      ∃ l, GetRolloutServiceKeys iter
          (some ⟨"prod", ⟨⟨some ⟨"svc-active", "svc-preview"⟩, canary⟩⟩⟩) = Except.ok l ∧
        ∀ k, k ∈ l ↔ k = "prod/svc-active" ∨ k = "prod/svc-preview") := by
  have main : ∀ (iter : List Nat) (ns a p : String) (canary : Option CanaryStrategy),
      ∃ l, GetRolloutServiceKeys iter (some ⟨ns, ⟨⟨some ⟨a, p⟩, canary⟩⟩⟩) = Except.ok l ∧
        (∀ k, k ∈ l ↔ (a ≠ "" ∧ k = ns ++ "/" ++ a) ∨ (p ≠ "" ∧ k = ns ++ "/" ++ p)) ∧
        (a = "" → p = "" → l = []) := by
    intro iter ns a p canary
    refine ⟨_, GetRolloutServiceKeys_some iter _, ?_, ?_⟩
    · intro k
      rw [(reorder_perm iter _).mem_iff, serviceKeys_blueGreen]
      show k ∈ (if a ≠ "" then [Sprintf ns a] else []) ++
        (if p ≠ "" ∧ ¬ (a ≠ "" ∧ Sprintf ns p = Sprintf ns a) then [Sprintf ns p] else []) ↔ _
      have hS : ∀ x, Sprintf ns x = ns ++ "/" ++ x := fun _ => rfl
      by_cases ha : a = "" <;> by_cases hp : p = "" <;> simp [ha, hp, hS]
      by_cases he : ns ++ "/" ++ p = ns ++ "/" ++ a
      · simp [he]
      · simp [he]
    · intro ha hp
      rw [serviceKeys_blueGreen]
      simp [ha, hp, reorder_nil]
  refine ⟨main, ?_⟩
  intro iter canary
  obtain ⟨l, hl, hmem, _⟩ := main iter "prod" "svc-active" "svc-preview" canary
  refine ⟨l, hl, ?_⟩
  intro k
  rw [hmem k]
  have h1 : ("svc-active" : String) ≠ "" := by decide
  have h2 : ("svc-preview" : String) ≠ "" := by decide
  have h3 : ("prod" : String) ++ "/" ++ "svc-active" = "prod/svc-active" := by decide
  have h4 : ("prod" : String) ++ "/" ++ "svc-preview" = "prod/svc-preview" := by decide
  simp only [h1, h2, h3, h4, ne_eq, not_false_eq_true, true_and]

/-- Witness for C1: both service names empty in namespace `prod`. -/
theorem GetRolloutServiceKeys_blueGreen_mem_witness :
    GetRolloutServiceKeys [1] (some ⟨"prod", ⟨⟨some ⟨"", ""⟩, none⟩⟩⟩) = Except.ok [] := by
  obtain ⟨l, hl, _, hnil⟩ := GetRolloutServiceKeys_blueGreen_mem.1 [1] "prod" "" "" none
  rw [hl, hnil rfl rfl]

/-- C2: the list returned by `GetRolloutServiceKeys` has no duplicate entries, and when
the BlueGreen active and preview service names are the same non-empty name `s` the list
is the single key `ns/s` (length 1, not 2). -/
theorem GetRolloutServiceKeys_nodup (iter : List Nat) (rollout : Rollout) :
    ∃ l, GetRolloutServiceKeys iter (some rollout) = Except.ok l ∧ l.Nodup ∧
      ∀ s : String, s ≠ "" → rollout.Spec.Strategy.BlueGreenStrategy = some ⟨s, s⟩ →
        l = [rollout.Namespace ++ "/" ++ s] ∧ l.length = 1 := by
  refine ⟨_, GetRolloutServiceKeys_some iter rollout, ?_, ?_⟩
  · exact (reorder_perm iter _).nodup_iff.mpr (serviceKeys_nodup rollout)
  · intro s hs hbg
    obtain ⟨ns, ⟨⟨bg, canary⟩⟩⟩ := rollout
    simp only at hbg
    subst hbg
    rw [serviceKeys_blueGreen]
    have hkeys : ([Sprintf ns s] ++ if s ≠ "" ∧ ¬ (s ≠ "" ∧ Sprintf ns s = Sprintf ns s)
        then [Sprintf ns s] else []) = [Sprintf ns s] := by
      simp [hs]
    rw [if_pos hs, hkeys, reorder_singleton]
    exact ⟨rfl, rfl⟩

/-- Witness for C2: active and preview both name `svcA` in namespace `prod`. -/
theorem GetRolloutServiceKeys_nodup_witness :
    GetRolloutServiceKeys [1, 0] (some ⟨"prod", ⟨⟨some ⟨"svcA", "svcA"⟩, none⟩⟩⟩) =
      Except.ok ["prod/svcA"] := by
  obtain ⟨l, hl, _, hsame⟩ :=
    GetRolloutServiceKeys_nodup [1, 0] ⟨"prod", ⟨⟨some ⟨"svcA", "svcA"⟩, none⟩⟩⟩
  rw [hl, (hsame "svcA" (by decide) rfl).1]
  decide

/-- C3: for a rollout with only the Canary strategy populated, `GetRolloutServiceKeys`
returns exactly `[ns/c]` when the canary service name `c` is non-empty and the empty list
when it is empty; `svcC` gives `[ns/svcC]`. -/
theorem GetRolloutServiceKeys_canary (iter : List Nat) (ns c : String) :
    GetRolloutServiceKeys iter (some ⟨ns, ⟨⟨none, some ⟨c⟩⟩⟩⟩) =
      Except.ok (if c ≠ "" then [ns ++ "/" ++ c] else []) ∧
    GetRolloutServiceKeys iter (some ⟨ns, ⟨⟨none, some ⟨"svcC"⟩⟩⟩⟩) =
      Except.ok [ns ++ "/" ++ "svcC"] := by
  have main : ∀ c : String, GetRolloutServiceKeys iter (some ⟨ns, ⟨⟨none, some ⟨c⟩⟩⟩⟩) =
      Except.ok (if c ≠ "" then [ns ++ "/" ++ c] else []) := by
    intro c
    rw [GetRolloutServiceKeys_some, serviceKeys_canary]
    by_cases hc : c = ""
    · simp [hc, reorder_nil]
    · simp only [hc, ne_eq, not_false_eq_true, if_true, reorder_singleton]
      rfl
  refine ⟨main c, ?_⟩
  rw [main "svcC"]
  have h : ("svcC" : String) ≠ "" := by decide
  simp only [h, ne_eq, not_false_eq_true, if_true]

/-- C5 (as stated, refuted): two evaluations of `GetRolloutServiceKeys` on the same
rollout, under two visiting orders of the map range, return the two keys in opposite
orders. -/
theorem range_order_differs_between_evaluations :
    GetRolloutServiceKeys [0] (some ⟨"prod", ⟨⟨some ⟨"svc-active", "svc-preview"⟩, none⟩⟩⟩) =
      Except.ok ["prod/svc-active", "prod/svc-preview"] ∧
    GetRolloutServiceKeys [1] (some ⟨"prod", ⟨⟨some ⟨"svc-active", "svc-preview"⟩, none⟩⟩⟩) =
      Except.ok ["prod/svc-preview", "prod/svc-active"] ∧
    ¬ (∀ (iter1 iter2 : List Nat) (rollout : Rollout),
      GetRolloutServiceKeys iter1 (some rollout) = GetRolloutServiceKeys iter2 (some rollout)) := by
  refine ⟨by decide, by decide, ?_⟩
  intro h
  have h2 := h [0] [1] ⟨"prod", ⟨⟨some ⟨"svc-active", "svc-preview"⟩, none⟩⟩⟩
  revert h2
  decide

/-- C5 (amended): any two evaluations of `GetRolloutServiceKeys` on the same rollout
return lists holding the same keys, each exactly once: both lists are free of
duplicates, one is a permutation of the other, and the two lists are equal when they hold
at most one key. -/
theorem GetRolloutServiceKeys_same_keys (iter1 iter2 : List Nat) (rollout : Rollout) :
    ∃ l1 l2, GetRolloutServiceKeys iter1 (some rollout) = Except.ok l1 ∧
      GetRolloutServiceKeys iter2 (some rollout) = Except.ok l2 ∧
      l1.Nodup ∧ l2.Nodup ∧
      l1.Perm l2 ∧ (∀ k, k ∈ l1 ↔ k ∈ l2) ∧ (l1.length ≤ 1 → l1 = l2) := by
  have hperm : (reorder iter1 (serviceKeys rollout)).Perm (reorder iter2 (serviceKeys rollout)) :=
    (reorder_perm iter1 _).trans (reorder_perm iter2 _).symm
  refine ⟨_, _, GetRolloutServiceKeys_some iter1 rollout, GetRolloutServiceKeys_some iter2 rollout,
    (reorder_perm iter1 _).nodup_iff.mpr (serviceKeys_nodup rollout),
    (reorder_perm iter2 _).nodup_iff.mpr (serviceKeys_nodup rollout),
    hperm, fun k => hperm.mem_iff, ?_⟩
  intro hlen
  generalize reorder iter1 (serviceKeys rollout) = l1 at hperm hlen
  generalize reorder iter2 (serviceKeys rollout) = l2 at hperm
  match l1, hlen, hperm with
  | [], _, hp => exact (List.perm_nil.mp hp.symm).symm
  | [a], _, hp => exact (List.perm_singleton.mp hp.symm).symm

/-- Witness for C5 (amended): a Canary rollout returns its single key in both
evaluations. -/
theorem GetRolloutServiceKeys_same_keys_witness :
    GetRolloutServiceKeys [0] (some ⟨"prod", ⟨⟨none, some ⟨"svcC"⟩⟩⟩⟩) =
      GetRolloutServiceKeys [1] (some ⟨"prod", ⟨⟨none, some ⟨"svcC"⟩⟩⟩⟩) := by
  obtain ⟨l1, l2, h1, h2, _, _, _, _, heq⟩ :=
    GetRolloutServiceKeys_same_keys [0] [1] ⟨"prod", ⟨⟨none, some ⟨"svcC"⟩⟩⟩⟩
  have hl1 : l1 = ["prod/svcC"] := by
    have h3 : GetRolloutServiceKeys [0] (some ⟨"prod", ⟨⟨none, some ⟨"svcC"⟩⟩⟩⟩) =
        Except.ok ["prod/svcC"] := by decide
    rw [h3] at h1
    exact (Except.ok.inj h1).symm
  rw [h1, h2, heq (by simp [hl1])]

/-- C6 (as stated, refuted): on an absent rollout `GetRolloutServiceKeys` ends with a
nil-pointer panic and returns no list. -/
theorem nil_rollout_panics :
    GetRolloutServiceKeys [] none = Except.error GoPanic.nilPointerDereference ∧
    ¬ ∃ l, GetRolloutServiceKeys [] none = Except.ok l := by
  refine ⟨rfl, ?_⟩
  rintro ⟨l, hl⟩
  exact Except.noConfusion hl

/-- C6 (amended): `GetRolloutSelectorLabel` returns a result for every service
reference, the absent one and one with an absent selector included (both give
`("", false)`); `GetRolloutServiceKeys` returns a list for every rollout that is
present, and the empty list when neither strategy is populated or when every service
name is empty. -/
theorem trafficResolver_total :
    (∀ svc : Option Service, ∃ r, GetRolloutSelectorLabel svc = Except.ok r) ∧
    GetRolloutSelectorLabel none = Except.ok ("", false) ∧
    GetRolloutSelectorLabel (some ⟨⟨none⟩⟩) = Except.ok ("", false) ∧
    (∀ (iter : List Nat) (rollout : Rollout),
      ∃ l, GetRolloutServiceKeys iter (some rollout) = Except.ok l) ∧
    (∀ (iter : List Nat) (ns : String),
      GetRolloutServiceKeys iter (some ⟨ns, ⟨⟨none, none⟩⟩⟩) = Except.ok []) ∧
    (∀ (iter : List Nat) (ns : String),
      GetRolloutServiceKeys iter (some ⟨ns, ⟨⟨some ⟨"", ""⟩, some ⟨""⟩⟩⟩⟩) = Except.ok [] ∧
      GetRolloutServiceKeys iter (some ⟨ns, ⟨⟨some ⟨"", ""⟩, none⟩⟩⟩) = Except.ok [] ∧
      GetRolloutServiceKeys iter (some ⟨ns, ⟨⟨none, some ⟨""⟩⟩⟩⟩) = Except.ok []) := by
  refine ⟨?_, rfl, rfl, fun iter rollout => ⟨_, GetRolloutServiceKeys_some iter rollout⟩, ?_, ?_⟩
  · intro svc
    match svc with
    | none => exact ⟨_, rfl⟩
    | some ⟨⟨none⟩⟩ => exact ⟨_, rfl⟩
    | some ⟨⟨some selector⟩⟩ =>
      exact ⟨mapIndex (some selector) DefaultRolloutUniqueLabelKey,
        by simp [GetRolloutSelectorLabel, deref, bind, Except.bind, pure, Except.pure]⟩
  · intro iter ns
    rw [GetRolloutServiceKeys_some, serviceKeys_neither, reorder_nil]
  · intro iter ns
    refine ⟨?_, ?_, ?_⟩
    · rw [GetRolloutServiceKeys_some, serviceKeys_blueGreen]; simp [reorder_nil]
    · rw [GetRolloutServiceKeys_some, serviceKeys_blueGreen]; simp [reorder_nil]
    · rw [GetRolloutServiceKeys_some, serviceKeys_canary]; simp [reorder_nil]

/-- C7 (as stated, refuted): a rollout with both strategy variants populated gets an
ordinary list of service keys, not an error outcome. -/
theorem both_variants_resolved_silently :
    GetRolloutServiceKeys []
        (some ⟨"prod", ⟨⟨some ⟨"svc-active", "svc-preview"⟩, some ⟨"svc-canary"⟩⟩⟩⟩) =
      Except.ok ["prod/svc-active", "prod/svc-preview"] ∧
    ¬ ∃ e, GetRolloutServiceKeys []
        (some ⟨"prod", ⟨⟨some ⟨"svc-active", "svc-preview"⟩, some ⟨"svc-canary"⟩⟩⟩⟩) =
      Except.error e := by
  refine ⟨by decide, ?_⟩
  rintro ⟨e, he⟩
  have h : GetRolloutServiceKeys []
      (some ⟨"prod", ⟨⟨some ⟨"svc-active", "svc-preview"⟩, some ⟨"svc-canary"⟩⟩⟩⟩) =
      Except.ok ["prod/svc-active", "prod/svc-preview"] := by decide
  rw [h] at he
  exact Except.noConfusion he

/-- C7 (amended): a rollout with both strategy variants populated is resolved as a
BlueGreen rollout. `GetRolloutServiceKeys` reports no error and returns an ordinary list
that holds exactly the keys of the non-empty active and preview service names, each once;
an evaluation on the same rollout with the Canary variant absent, under any range order
of its own, returns a permutation of that list. -/
theorem GetRolloutServiceKeys_both_variants (iter1 iter2 : List Nat) (ns : String)
    (bg : BlueGreenStrategy) (canary : CanaryStrategy) :
    ∃ l1 l2, GetRolloutServiceKeys iter1 (some ⟨ns, ⟨⟨some bg, some canary⟩⟩⟩) = Except.ok l1 ∧
      GetRolloutServiceKeys iter2 (some ⟨ns, ⟨⟨some bg, none⟩⟩⟩) = Except.ok l2 ∧
      (∀ e, GetRolloutServiceKeys iter1 (some ⟨ns, ⟨⟨some bg, some canary⟩⟩⟩) ≠
        Except.error e) ∧
      l1.Perm l2 ∧ l1.Nodup ∧
      (∀ k, k ∈ l1 ↔ (bg.ActiveService ≠ "" ∧ k = ns ++ "/" ++ bg.ActiveService) ∨
        (bg.PreviewService ≠ "" ∧ k = ns ++ "/" ++ bg.PreviewService)) := by
  have hkeys : serviceKeys ⟨ns, ⟨⟨some bg, some canary⟩⟩⟩ = serviceKeys ⟨ns, ⟨⟨some bg, none⟩⟩⟩ := by
    rw [serviceKeys_blueGreen, serviceKeys_blueGreen]
  refine ⟨_, _, GetRolloutServiceKeys_some iter1 _, GetRolloutServiceKeys_some iter2 _,
    ?_, ?_, ?_, ?_⟩
  · intro e he
    rw [GetRolloutServiceKeys_some] at he
    exact Except.noConfusion he
  · rw [hkeys]
    exact (reorder_perm iter1 _).trans (reorder_perm iter2 _).symm
  · exact (reorder_perm iter1 _).nodup_iff.mpr (serviceKeys_nodup _)
  · intro k
    rw [(reorder_perm iter1 _).mem_iff]
    exact mem_serviceKeys_blueGreen ns bg (some canary) k

/-- C10: BlueGreen takes precedence over Canary. Two rollouts with the same namespace and
the same populated BlueGreen strategy, whatever their Canary fields, get the same set of
keys from `GetRolloutServiceKeys`; and a canary service key occurs in the result only if
it is the key of the (non-empty) active or preview service, that is, only if the canary
service name is the active or the preview service name. -/
theorem GetRolloutServiceKeys_blueGreen_precedence (iter1 iter2 : List Nat) (ns : String)
    (bg : BlueGreenStrategy) (canary1 canary2 : Option CanaryStrategy) :
    ∃ l1 l2, GetRolloutServiceKeys iter1 (some ⟨ns, ⟨⟨some bg, canary1⟩⟩⟩) = Except.ok l1 ∧
      GetRolloutServiceKeys iter2 (some ⟨ns, ⟨⟨some bg, canary2⟩⟩⟩) = Except.ok l2 ∧
      (∀ k, k ∈ l1 ↔ k ∈ l2) ∧ l1.Perm l2 ∧
      ∀ c : CanaryStrategy, canary1 = some c → ns ++ "/" ++ c.CanaryService ∈ l1 →
        (bg.ActiveService ≠ "" ∧ c.CanaryService = bg.ActiveService) ∨
        (bg.PreviewService ≠ "" ∧ c.CanaryService = bg.PreviewService) := by
  have hkeys : serviceKeys ⟨ns, ⟨⟨some bg, canary1⟩⟩⟩ = serviceKeys ⟨ns, ⟨⟨some bg, canary2⟩⟩⟩ := by
    rw [serviceKeys_blueGreen, serviceKeys_blueGreen]
  have hperm : (reorder iter1 (serviceKeys ⟨ns, ⟨⟨some bg, canary1⟩⟩⟩)).Perm
      (reorder iter2 (serviceKeys ⟨ns, ⟨⟨some bg, canary2⟩⟩⟩)) := by
    rw [hkeys]
    exact (reorder_perm iter1 _).trans (reorder_perm iter2 _).symm
  refine ⟨_, _, GetRolloutServiceKeys_some iter1 _, GetRolloutServiceKeys_some iter2 _,
    fun k => hperm.mem_iff, hperm, ?_⟩
  intro c _ hmem
  rw [(reorder_perm iter1 _).mem_iff, serviceKeys_blueGreen] at hmem
  change Sprintf ns c.CanaryService ∈ _ at hmem
  rw [List.mem_append] at hmem
  rcases hmem with h | h
  · by_cases ha : bg.ActiveService = ""
    · simp [ha] at h
    · simp only [ha, ne_eq, not_false_eq_true, if_true, List.mem_singleton] at h
      exact Or.inl ⟨ha, Sprintf_inj ns _ _ h⟩
  · by_cases hp : bg.PreviewService = ""
    · simp [hp] at h
    · right
      refine ⟨hp, ?_⟩
      split at h
      · exact Sprintf_inj ns _ _ (List.mem_singleton.mp h)
      · simp at h

/-- Witness for C10: in namespace `prod` with BlueGreen services `svc-active` and
`svc-preview`, the rollout with canary service `svc-preview` and the rollout without a
Canary strategy get the same keys, and the canary key occurs because it is the preview
key. -/
theorem GetRolloutServiceKeys_blueGreen_precedence_witness :
    (∃ l1 l2,
      GetRolloutServiceKeys [1]
        (some ⟨"prod", ⟨⟨some ⟨"svc-active", "svc-preview"⟩, some ⟨"svc-preview"⟩⟩⟩⟩) =
        Except.ok l1 ∧
      GetRolloutServiceKeys [0] (some ⟨"prod", ⟨⟨some ⟨"svc-active", "svc-preview"⟩, none⟩⟩⟩) =
        Except.ok l2 ∧ l1.Perm l2) ∧
    (("svc-active" : String) ≠ "" ∧ ("svc-preview" : String) = "svc-active" ∨
      ("svc-preview" : String) ≠ "" ∧ ("svc-preview" : String) = "svc-preview") := by
  obtain ⟨l1, l2, h1, h2, _, hperm, hc⟩ :=
    GetRolloutServiceKeys_blueGreen_precedence [1] [0] "prod" ⟨"svc-active", "svc-preview"⟩
      (some ⟨"svc-preview"⟩) none
  have hl1 : l1 = ["prod/svc-preview", "prod/svc-active"] := by
    have h3 : GetRolloutServiceKeys [1]
        (some ⟨"prod", ⟨⟨some ⟨"svc-active", "svc-preview"⟩, some ⟨"svc-preview"⟩⟩⟩⟩) =
        Except.ok ["prod/svc-preview", "prod/svc-active"] := by decide
    rw [h3] at h1
    exact (Except.ok.inj h1).symm
  exact ⟨⟨l1, l2, h1, h2, hperm⟩, hc ⟨"svc-preview"⟩ rfl (by rw [hl1]; decide)⟩

/-! ## Claims on the controller command -/

theorem Manager.Run_invalid (workerPoolStartErr : Bool) (r s e : Int)
    (h : r < 1 ∨ s < 1 ∨ e < 1) :
    Manager.Run workerPoolStartErr r s e = ([], some "invalid worker count") := by
  simp [Manager.Run, h]

/-- C8: an invalid worker count fails fast. When one of `--rollout-threads`,
`--service-threads`, `--experiment-threads` is 0 or otherwise not a positive integer, the
controller process ends with a non-zero exit status and no worker pool has been
started. -/
theorem main_invalid_worker_count (env : Environment)
    (rolloutThreads serviceThreads experimentThreads : Option Int)
    (h : ¬ positiveCount rolloutThreads ∨ ¬ positiveCount serviceThreads ∨
      ¬ positiveCount experimentThreads) :
    (main env rolloutThreads serviceThreads experimentThreads).2 ≠ 0 ∧
    ∀ effect ∈ (main env rolloutThreads serviceThreads experimentThreads).1,
      ¬ effect.startsWorkerPool := by
  match rolloutThreads, serviceThreads, experimentThreads with
  | some r, some s, some e =>
    have hinv : r < 1 ∨ s < 1 ∨ e < 1 := by
      simp only [positiveCount, Option.some.injEq, exists_eq_left', not_lt] at h
      omega
    obtain ⟨p, c, n, k, rc, w⟩ := env
    cases p <;> cases c <;> cases n <;> cases k <;> cases rc <;>
      simp [main, RunE, Manager.Run_invalid _ r s e hinv, Effect.startsWorkerPool]
  | none, _, _ => simp [main]
  | some _, none, _ => simp [main]
  | some _, some _, none => simp [main]

/-- Witness for C8: `--service-threads 0` with working collaborators. -/
theorem main_invalid_worker_count_witness :
    (¬ positiveCount (some 10) ∨ ¬ positiveCount (some 0) ∨ ¬ positiveCount (some 10)) ∧
    (main ⟨false, false, false, false, false, false⟩ (some 10) (some 0) (some 10)).2 ≠ 0 ∧
    ∀ effect ∈ (main ⟨false, false, false, false, false, false⟩ (some 10) (some 0) (some 10)).1,
      ¬ effect.startsWorkerPool :=
  have h : ¬ positiveCount (some 10) ∨ ¬ positiveCount (some 0) ∨ ¬ positiveCount (some 10) :=
    Or.inr (Or.inl (by simp [positiveCount]))
  ⟨h, main_invalid_worker_count ⟨false, false, false, false, false, false⟩ (some 10) (some 0)
    (some 10) h⟩

end ArgoRollouts
